import Mathlib

set_option maxHeartbeats 1000000

/-!
Verification of the event-normalization and script-synthesis engine of
`playwright-codegen` (the `Codegen` class of `src/codegen.ts`, latest revision).

The shallow embedding below translates the relevant parts of the source:

* `ConsumedEventData` (the entries of the action log `this.events`) becomes
  the inductive type `Entry`; the incoming raw events (`EventMap` values fed
  to `Codegen.consume`) become `RawEvent`.  Mouse coordinates and wheel
  deltas (JS numbers) are modelled as `Int`.
* The mutable instance fields `events` / `down` / `steps` become the record
  `SessionState`; `Codegen.consume` returns the boolean result of the source
  method together with the updated state.  The source method mutates
  `this.down` and `this.steps` before the merge/append chain and can return
  `false` early; this control flow is split into `trackButton` (the
  mousedown/mouseup/mousemove `if/else if` chain), `trackSteps` (the step
  push/pop chain) and `mergeEvent` (the merge/append chain on the log tail),
  composed in `Codegen.consume` in source order.  In the branches where the
  source returns `false` early, the fields updated by the skipped phases are
  provably untouched (an early `return false` for `mousemove` happens only
  when `down` is not reassigned, and an early `return false` for an
  unmatched step `end` happens only when `steps.pop()` on an empty array
  left `steps` unchanged), so returning the unchanged state is faithful.
* `Partial<EventModifiers>` fields are modelled as four booleans (an absent
  modifier behaves exactly like `false` in every use site of the source).
* The session driver of `attach` / `install` (the lodash `debounce`d
  `write`, the `recording` gate of `emitCodegenEvent`, the ungated
  `framenavigated` handler, and the exposed API functions guarded by
  `assertRecording`) is modelled by the record `Driver`; the trailing-edge
  debounce timer is modelled by a `pending` flag plus an explicit
  `timerFire` transition, and the script file by the last written content.
-/

structure Modifiers where
  shiftKey : Bool
  ctrlKey : Bool
  altKey : Bool
  metaKey : Bool
deriving DecidableEq, Repr

/-- The four all-absent modifier flags (no modifier key held). -/
def noMods : Modifiers := ⟨false, false, false, false⟩

/-- `lodash.capitalize`: first character upper-cased, the rest lower-cased. -/
def capitalize (s : String) : String :=
  match s.data with
  | [] => ""
  | c :: cs => String.mk (c.toUpper :: cs.map Char.toLower)

/-- `getCodegenKey`: for each modifier present, in the object-literal order
`altKey, ctrlKey, metaKey, shiftKey`, take `capitalize(key.replace("Key", ""))`,
drop empty labels and labels equal to the key itself, append the key, and join
with `+`. -/
def getCodegenKey (key : String) (m : Modifiers) : String :=
  String.intercalate "+"
    ((([("altKey", m.altKey), ("ctrlKey", m.ctrlKey), ("metaKey", m.metaKey),
        ("shiftKey", m.shiftKey)].map
          (fun p => if p.2 then capitalize (p.1.replace "Key" "") else "")).filter
        (fun v => !(v == "") && !(v == key))) ++ [key])

/-- `PageScreenshotOptions.clip` rectangles. -/
structure Rect where
  x : Int
  y : Int
  width : Int
  height : Int
deriving DecidableEq, Repr

/-- The `which` field of `StepEventData` (source strings `"start"` / `"end"`). -/
inductive StepWhich
  | start
  | «end»
deriving DecidableEq, Repr

/-- `ConsumedEventData`: the entries of the action log `this.events`.
The `steps` field of a `mousemove` entry is optional in the source
(`steps?: number`), hence `Option Nat` here; screenshot bytes are an opaque
byte payload modelled as `List Nat`, and its `options` are modelled by their
only field the engine reads, the optional `clip` rectangle. -/
inductive Entry
  | mousedown (x y : Int) (handle : String) (mods : Modifiers)
  | mousemove (x y : Int) (handle : String) (mods : Modifiers) (steps : Option Nat)
  | mouseup (x y : Int) (handle : String) (mods : Modifiers)
  | click (x y : Int) (handle : String) (mods : Modifiers)
  | dblclick (x y : Int) (handle : String) (mods : Modifiers)
  | wheel (x y deltaX deltaY : Int) (handle : String) (mods : Modifiers)
  | keydown (key : String) (mods : Modifiers)
  | keyup (key : String) (mods : Modifiers)
  | keypress (key : String) (mods : Modifiers)
  | screenshot (handle : String) (name : String) (bytes : List Nat) (clip : Option Rect)
  | step (which : StepWhich) (name : Option String)
  | comment (value : String)
  | navigation (url : String)
deriving DecidableEq, Repr

/-- The `type` discriminator string of an entry, as compared by the source
(`last === "mousemove"` and so on). -/
def Entry.type : Entry → String
  | .mousedown .. => "mousedown"
  | .mousemove .. => "mousemove"
  | .mouseup .. => "mouseup"
  | .click .. => "click"
  | .dblclick .. => "dblclick"
  | .wheel .. => "wheel"
  | .keydown .. => "keydown"
  | .keyup .. => "keyup"
  | .keypress .. => "keypress"
  | .screenshot .. => "screenshot"
  | .step .. => "step"
  | .comment .. => "comment"
  | .navigation .. => "navigation"

/-- The optional `steps` field of an entry (`undefined`, i.e. `none`, for
every entry kind other than `mousemove`). -/
def Entry.stepsField : Entry → Option Nat
  | .mousemove _ _ _ _ s => s
  | _ => none

/-- Whether an entry is a `mousemove` run. -/
def Entry.isMM : Entry → Bool
  | .mousemove .. => true
  | _ => false

/-- The raw events dispatched to `Codegen.consume`: the values of `EventMap`
(mouse and keyboard events shipped by `emitCodegenEvent`, plus the
`screenshot`, `step`, `comment` and `navigation` events emitted by the
exposed API functions and the `framenavigated` handler). -/
inductive RawEvent
  | mousedown (x y : Int) (handle : String) (mods : Modifiers)
  | mousemove (x y : Int) (handle : String) (mods : Modifiers)
  | mouseup (x y : Int) (handle : String) (mods : Modifiers)
  | dblclick (x y : Int) (handle : String) (mods : Modifiers)
  | wheel (x y deltaX deltaY : Int) (handle : String) (mods : Modifiers)
  | keydown (key : String) (mods : Modifiers)
  | keyup (key : String) (mods : Modifiers)
  | screenshot (handle : String) (name : String) (bytes : List Nat) (clip : Option Rect)
  | step (which : StepWhich) (name : Option String)
  | comment (value : String)
  | navigation (url : String)
deriving DecidableEq, Repr

/-- The `type` discriminator string of a raw event. -/
def RawEvent.type : RawEvent → String
  | .mousedown .. => "mousedown"
  | .mousemove .. => "mousemove"
  | .mouseup .. => "mouseup"
  | .dblclick .. => "dblclick"
  | .wheel .. => "wheel"
  | .keydown .. => "keydown"
  | .keyup .. => "keyup"
  | .screenshot .. => "screenshot"
  | .step .. => "step"
  | .comment .. => "comment"
  | .navigation .. => "navigation"

/-- The session state mutated by `Codegen.consume`: the action log
`this.events`, the mouse-button flag `this.down`, and the open-step name
stack `this.steps` (the source pushes/pops at the array end; here the list
head is the stack top). -/
structure SessionState where
  events : List Entry
  down : Bool
  steps : List String
deriving DecidableEq, Repr

/-- The initial session state of a fresh `Codegen` instance
(`events = []`, `down = false`, `steps = []`). -/
def initState : SessionState := ⟨[], false, []⟩

/-- The mouse-button tracking chain of `consume`:
`mousedown` sets the flag, `mouseup` clears it, and a `mousemove` while the
flag is down (`!this.down`) makes `consume` return `false`.  `none` models
that early `return false`. -/
def trackButton (ev : RawEvent) (down : Bool) : Option Bool :=
  match ev with
  | .mousedown .. => some true
  | .mouseup .. => some false
  | .mousemove .. => if down then some down else none
  | _ => some down

/-- `ev.name || "step"`: the step name pushed for a step `start`
(an absent or empty name defaults to `"step"`). -/
def defaultStepName (name : Option String) : String :=
  match name with
  | some n => if n = "" then "step" else n
  | none => "step"

/-- The step-stack chain of `consume`: a step `start` pushes
`ev.name || "step"`; a step `end` pops one name, and if the stack was empty
(`!this.steps.pop()`) `consume` returns `false` (modelled by `none`).
Pushed names are never the empty string, so a pop of a non-empty stack never
yields a falsy value. -/
def trackSteps (ev : RawEvent) (steps : List String) : Option (List String) :=
  match ev with
  | .step .start name => some (defaultStepName name :: steps)
  | .step .«end» _ =>
    match steps with
    | [] => none
    | _ :: rest => some rest
  | _ => some steps

/-- The merge/append chain of `consume`, comparing the incoming event with
the tail (`last`) and the entry before it (`beforeLast`) of the log:

* `mousemove` after a tail `mousemove`: pop it and push the new coordinates
  with `steps = (popped.steps ?? 0) + 1`;
* `mouseup` after a tail `mousedown`: pop it and push `{ ...ev, type: "click" }`
  (the spread copies the mouseup event, so the click carries the mouseup's
  coordinates);
* `keyup` after a tail `keydown` with the same `getCodegenKey` label:
  pop it and push a `keypress`;
* `dblclick` when `last` and `beforeLast` are both `"click"`: pop both and
  push the dblclick;
* `wheel` after a tail `wheel` at the same `(x, y)`: pop it and push a wheel
  with the deltas summed, otherwise push a fresh wheel;
* everything else is pushed as a new entry. -/
def mergeEvent (ev : RawEvent) (events : List Entry) : List Entry :=
  match ev with
  | .mousemove x y h m =>
    if (events.getLast?).map Entry.type = some "mousemove" then
      events.dropLast ++
        [.mousemove x y h m (some (((events.getLast?).bind Entry.stepsField).getD 0 + 1))]
    else
      events ++ [.mousemove x y h m none]
  | .mouseup x y h m =>
    if (events.getLast?).map Entry.type = some "mousedown" then
      events.dropLast ++ [.click x y h m]
    else
      events ++ [.mouseup x y h m]
  | .keyup k m =>
    match events.getLast? with
    | some (.keydown k2 m2) =>
      if getCodegenKey k m = getCodegenKey k2 m2 then
        events.dropLast ++ [.keypress k m]
      else
        events ++ [.keyup k m]
    | _ => events ++ [.keyup k m]
  | .dblclick x y h m =>
    if (events.getLast?).map Entry.type = some "click" ∧
        ((events.dropLast).getLast?).map Entry.type = some "click" then
      (events.dropLast).dropLast ++ [.dblclick x y h m]
    else
      events ++ [.dblclick x y h m]
  | .wheel x y dX dY h m =>
    match events.getLast? with
    | some (.wheel lx ly ldX ldY _ _) =>
      if lx = x ∧ ly = y then
        events.dropLast ++ [.wheel x y (ldX + dX) (ldY + dY) h m]
      else
        events ++ [.wheel x y dX dY h m]
    | _ => events ++ [.wheel x y dX dY h m]
  | .mousedown x y h m => events ++ [.mousedown x y h m]
  | .keydown k m => events ++ [.keydown k m]
  | .screenshot h n b c => events ++ [.screenshot h n b c]
  | .step w n => events ++ [.step w n]
  | .comment v => events ++ [.comment v]
  | .navigation u => events ++ [.navigation u]

/-- `Codegen.consume`: the three phases of the source method in source order
(button tracking, step-stack handling, merge/append), returning the boolean
result of the method together with the updated session state. -/
def Codegen.consume (ev : RawEvent) (st : SessionState) : Bool × SessionState :=
  match trackButton ev st.down with
  | none => (false, st)
  | some down =>
    match trackSteps ev st.steps with
    | none => (false, st)
    | some steps => (true, { events := mergeEvent ev st.events, down := down, steps := steps })

/-- Consume a list of raw events in arrival order. -/
def consumeAll (evs : List RawEvent) (st : SessionState) : SessionState :=
  evs.foldl (fun s e => (Codegen.consume e s).2) st

/-- The session state reached from a fresh instance by a raw-event trace. -/
def runTrace (evs : List RawEvent) : SessionState :=
  consumeAll evs initState

/-- `JSON.stringify` of a clip rectangle. -/
def stringifyRect (r : Rect) : String :=
  "\x7b\"x\":" ++ toString r.x ++ ",\"y\":" ++ toString r.y ++
    ",\"width\":" ++ toString r.width ++ ",\"height\":" ++ toString r.height ++ "\x7d"

/-- `JSON.stringify` of the screenshot options as the engine models them
(the emitted options object always exists, holding at most the clip). -/
def stringifyOptions (clip : Option Rect) : String :=
  match clip with
  | some r => "\x7b\"clip\":" ++ stringifyRect r ++ "\x7d"
  | none => "\x7b\x7d"

/-- The line(s) of script text emitted for one log entry by `parse`
(the `switch` of the source, one case per entry kind). -/
def parseEntry (ev : Entry) : List String :=
  match ev with
  | .keydown k m => ["await page.keyboard.down(\x27" ++ getCodegenKey k m ++ "\x27);"]
  | .keyup k m => ["await page.keyboard.up(\x27" ++ getCodegenKey k m ++ "\x27);"]
  | .keypress k m => ["await page.keyboard.press(\x27" ++ getCodegenKey k m ++ "\x27);"]
  | .mousedown x y _ _ =>
    ["await page.mouse.move(" ++ toString x ++ ", " ++ toString y ++ ");",
     "await page.mouse.down();"]
  | .mousemove x y _ _ s =>
    ["await page.mouse.move(" ++ toString x ++ ", " ++ toString y ++
      ", \x7b steps: " ++ toString (s.getD 0) ++ " \x7d);"]
  | .mouseup _ _ _ _ => ["await page.mouse.up();"]
  | .click x y _ _ =>
    ["await page.mouse.click(" ++ toString x ++ ", " ++ toString y ++ ");"]
  | .dblclick x y _ _ =>
    ["await page.mouse.dblclick(" ++ toString x ++ ", " ++ toString y ++ ");"]
  | .wheel x y dX dY _ _ =>
    ["await page.mouse.move(" ++ toString x ++ ", " ++ toString y ++ ");",
     "await page.mouse.wheel(" ++ toString dX ++ ", " ++ toString dY ++ ");"]
  | .screenshot h n _ clip =>
    ["expect(" ++
      (match clip with
       | some _ => "page"
       | none => "await page.locator(" ++ h ++ ")") ++
      ").toHaveScreenshot(\x27" ++ n ++ "\x27, " ++ stringifyOptions clip ++ ");"]
  | .step .start name =>
    ["await test.step(\x27" ++ defaultStepName name ++ "\x27, async () => \x7b"]
  | .step .«end» _ => ["\x7d);"]
  | .comment v => ["// " ++ v]
  | .navigation u => ["await page.goto(\x27" ++ u ++ "\x27);"]

/-- The `data` array of `parse`: the log with one synthetic step-`end` entry
appended per still-open step (`new Array(this.steps.length).fill({...})`). -/
def parseData (st : SessionState) : List Entry :=
  st.events ++ List.replicate st.steps.length (Entry.step StepWhich.«end» none)

/-- `Codegen.parse`: render the completed log to script lines. -/
def Codegen.parse (st : SessionState) : List String :=
  (parseData st).flatMap parseEntry

/-- `Codegen.write`: the full text written to the script file (header lines,
the rendered log, and the closing line). -/
def Codegen.write (st : SessionState) : String :=
  String.intercalate "\n"
    (["import \x7b test, expect \x7d from \"@playwright/test\";",
      "",
      "// This file is readonly and gets written frequently",
      "",
      "test(\x27codegen output\x27, async (\x7b page \x7d, testInfo) => \x7b",
      "",
      "// you may need to replace the `selector` value",
      "const selector = \x27#canvas\x27;",
      "",
      ""] ++ Codegen.parse st ++ ["\x7d);"])

/-- The session driver wired by `install` / `attach`: the `recording` gate,
the session state, the trailing-edge debounced `write` (modelled by a
`pending` flag and the last written `file` content), the screenshot-name
counter and the test title used for auto-generated screenshot names. -/
structure Driver where
  recording : Bool
  st : SessionState
  pending : Bool
  file : Option String
  counter : Nat
  title : String
deriving DecidableEq, Repr

/-- A fresh driver (file not yet written by the engine). -/
def initDriver (recording : Bool) (title : String) : Driver :=
  ⟨recording, initState, false, none, 0, title⟩

/-- The `exec` listener of `attach`:
`(ev) => this.consume(ev) && write()` — consuming an accepted event
schedules the debounced write. -/
def Codegen.exec (ev : RawEvent) (d : Driver) : Driver :=
  let r := Codegen.consume ev d.st
  { d with st := r.2, pending := d.pending || r.1 }

/-- The debounce delay elapsing: if a write is pending, render the current
log and write the file. -/
def Codegen.timerFire (d : Driver) : Driver :=
  if d.pending then { d with pending := false, file := some (Codegen.write d.st) } else d

/-- The exposed `emitCodegenEvent` callback:
`this.recording && this.emit(e.type, e)` — mouse and keyboard events are
dropped while `recording` is false. -/
def Codegen.emitCodegenEvent (e : RawEvent) (d : Driver) : Driver :=
  if d.recording then Codegen.exec e d else d

/-- The `framenavigated` handler of `install`: it emits a navigation event
unconditionally (the source performs no `recording` check there). -/
def Codegen.onFrameNavigated (url : String) (d : Driver) : Driver :=
  Codegen.exec (RawEvent.navigation url) d

/-- The exposed `startRecording` function. -/
def Codegen.startRecording (d : Driver) : Driver :=
  { d with recording := true }

/-- The exposed `stopRecording` function: it only clears the flag. -/
def Codegen.stopRecording (d : Driver) : Driver :=
  { d with recording := false }

/-- The exposed `step(name?)` API function: `assertRecording()` throws when
`recording` is false (first component `true` = an error was raised),
otherwise a step-`start` event is emitted and consumed. -/
def Codegen.step (name : Option String) (d : Driver) : Bool × Driver :=
  if d.recording = false then (true, d)
  else (false, Codegen.exec (RawEvent.step StepWhich.start name) d)

/-- The exposed `endStep()` API function. -/
def Codegen.endStep (d : Driver) : Bool × Driver :=
  if d.recording = false then (true, d)
  else (false, Codegen.exec (RawEvent.step StepWhich.«end» none) d)

/-- The exposed `comment(value)` API function. -/
def Codegen.comment (value : String) (d : Driver) : Bool × Driver :=
  if d.recording = false then (true, d)
  else (false, Codegen.exec (RawEvent.comment value) d)

/-- The exposed `captureScreenshot` binding.  The default value of the
`name` parameter (`` `${title}-${++counter}.png` ``) is evaluated before
`assertRecording()` runs, so an anonymous call increments the counter even
when it then throws.  The resolved target handle is the source's stub
`toSelector` result `"selector"`; the captured bytes and the optional clip
come from the out-of-scope capture collaborators and are inputs here. -/
def Codegen.captureScreenshot (name : Option String) (clip : Option Rect)
    (bytes : List Nat) (d : Driver) : Bool × Driver :=
  let nm : String × Nat :=
    match name with
    | some n => (n, d.counter)
    | none => (d.title ++ "-" ++ toString (d.counter + 1) ++ ".png", d.counter + 1)
  let d1 := { d with counter := nm.2 }
  if d1.recording = false then (true, d1)
  else (false, Codegen.exec (RawEvent.screenshot "selector" nm.1 bytes clip) d1)

/-- Step-nesting depth tracking: fold one entry into an `Option Nat` depth,
`none` meaning the nesting went negative (an `end` with no matching open
start).  Non-step entries leave the depth unchanged. -/
def stepDepth (d : Option Nat) (e : Entry) : Option Nat :=
  match d, e with
  | none, _ => none
  | some d, .step .start _ => some (d + 1)
  | some d, .step .«end» _ =>
    match d with
    | 0 => none
    | Nat.succ d => some d
  | some d, _ => some d

/-- The step-nesting depth of a whole entry list, started at depth 0.
`depthLog l = some 0` says the step boundaries of `l` are matched and
properly nested. -/
def depthLog (l : List Entry) : Option Nat :=
  l.foldl stepDepth (some 0)

/-- No two consecutive `mousemove` entries. -/
def noConsecMM (l : List Entry) : Prop :=
  l.Chain' (fun a b => ¬(a.isMM = true ∧ b.isMM = true))

instance (l : List Entry) : Decidable (noConsecMM l) := by
  unfold noConsecMM
  infer_instance

/-- A point of a raw `mousemove` event (used to quantify over runs of
consecutive mousemove events). -/
structure MovePt where
  x : Int
  y : Int
  handle : String
  mods : Modifiers
deriving DecidableEq, Repr

/-- The raw `mousemove` event of a point. -/
def MovePt.toRaw (p : MovePt) : RawEvent :=
  .mousemove p.x p.y p.handle p.mods

/-! ### Generic helpers -/

theorem eq_dropLast_concat {α : Type} {l : List α} {a : α} (h : l.getLast? = some a) :
    l = l.dropLast ++ [a] :=
  (List.dropLast_append_getLast? a h).symm

theorem depthLog_concat (l : List Entry) (e : Entry) :
    depthLog (l ++ [e]) = stepDepth (depthLog l) e := by
  simp [depthLog, List.foldl_append]

theorem stepDepth_nonstep (d : Option Nat) (e : Entry) (h : e.type ≠ "step") :
    stepDepth d e = d := by
  rcases d with _ | n
  · rfl
  · cases e <;> try rfl
    exact absurd rfl h

theorem depthLog_concat_nonstep (l : List Entry) (e : Entry) (h : e.type ≠ "step") :
    depthLog (l ++ [e]) = depthLog l := by
  rw [depthLog_concat, stepDepth_nonstep _ _ h]

theorem depthLog_dropLast_of_last (l : List Entry) (e : Entry)
    (hl : l.getLast? = some e) (h : e.type ≠ "step") :
    depthLog l.dropLast = depthLog l := by
  conv_rhs => rw [eq_dropLast_concat hl]
  rw [depthLog_concat_nonstep _ _ h]

/-! ### C1 -/

/-- C1 counterexample: with the log tail `MouseDown(1,2)`, consuming
`MouseUp(3,4)` pushes a `Click` carrying the mouseup's coordinates `(3,4)`,
not the mousedown's `(1,2)` as the claim states. -/
theorem click_takes_mouseup_coordinates :
    ((Codegen.consume (RawEvent.mouseup 3 4 "selector" noMods)
        (runTrace [RawEvent.mousedown 1 2 "selector" noMods])).2.events
      = [Entry.click 3 4 "selector" noMods]) ∧
    ((Codegen.consume (RawEvent.mouseup 3 4 "selector" noMods)
        (runTrace [RawEvent.mousedown 1 2 "selector" noMods])).2.events
      ≠ [Entry.click 1 2 "selector" noMods]) := by
  decide

/-- C1 (amended): for every session state whose log tail is a `MouseDown`
entry, consuming a `MouseUp` raw event pops that tail and pushes a single
`Click` entry whose `x, y` are the `MouseUp`'s coordinates (never leaving a
`MouseDown` + `MouseUp` pair in the log); the button flag is cleared and the
step stack is untouched. -/
theorem mouseup_collapses_tail_mousedown (st : SessionState) (init : List Entry)
    (dx dy : Int) (dh : String) (dm : Modifiers) (x y : Int) (h : String) (m : Modifiers)
    (hev : st.events = init ++ [Entry.mousedown dx dy dh dm]) :
    Codegen.consume (RawEvent.mouseup x y h m) st =
      (true, { events := init ++ [Entry.click x y h m], down := false, steps := st.steps }) := by
  simp [Codegen.consume, trackButton, trackSteps, mergeEvent, hev,
    List.getLast?_concat, List.dropLast_concat, Entry.type]

/-- C1 witness: the amended theorem applied at a concrete state. -/
theorem mouseup_collapses_tail_mousedown_witness :
    Codegen.consume (RawEvent.mouseup 7 8 "selector" noMods)
        ⟨[Entry.mousedown 1 2 "selector" noMods], true, ["s"]⟩ =
      (true, { events := [Entry.click 7 8 "selector" noMods], down := false, steps := ["s"] }) :=
  mouseup_collapses_tail_mousedown _ [] 1 2 "selector" noMods 7 8 "selector" noMods rfl

/-! ### C6 -/

/-- C6: consuming a `Wheel` raw event when the log tail is a `Wheel` entry at
the same `(x, y)` pops the tail and pushes one `Wheel` entry whose
`deltaX, deltaY` are the exact sums of both; at a different location a fresh
`Wheel` entry is appended instead.  The event is accepted and the button flag
and step stack are untouched. -/
theorem wheel_merge_same_position (st : SessionState) (init : List Entry)
    (lx ly ldX ldY : Int) (lh : String) (lm : Modifiers)
    (x y dX dY : Int) (h : String) (m : Modifiers)
    (hev : st.events = init ++ [Entry.wheel lx ly ldX ldY lh lm]) :
    Codegen.consume (RawEvent.wheel x y dX dY h m) st =
      (true, { st with events :=
        if lx = x ∧ ly = y then init ++ [Entry.wheel x y (ldX + dX) (ldY + dY) h m]
        else st.events ++ [Entry.wheel x y dX dY h m] }) := by
  simp only [Codegen.consume, trackButton, trackSteps, mergeEvent, hev,
    List.getLast?_concat, List.dropLast_concat]

/-- C6 witness: the spec's own example, deltas `(2,3)` then `(1,1)` at the
same point merging to `(3,4)`. -/
theorem wheel_merge_same_position_witness :
    Codegen.consume (RawEvent.wheel 1 2 1 1 "selector" noMods)
        ⟨[Entry.wheel 1 2 2 3 "selector" noMods], false, []⟩ =
      (true, { (⟨[Entry.wheel 1 2 2 3 "selector" noMods], false, []⟩ : SessionState) with
        events :=
          if (1 : Int) = 1 ∧ (2 : Int) = 2
          then [] ++ [Entry.wheel 1 2 (2 + 1) (3 + 1) "selector" noMods]
          else [Entry.wheel 1 2 2 3 "selector" noMods] ++
            [Entry.wheel 1 2 1 1 "selector" noMods] }) :=
  wheel_merge_same_position _ [] 1 2 2 3 "selector" noMods 1 2 1 1 "selector" noMods rfl

/-! ### C7 -/

/-- C7: consuming a `DoubleClick` raw event collapses the log exactly when
the two preceding tail entries are both `Click` entries (those two are
removed and one `DoubleClick` is pushed); otherwise — in particular with any
other entry intervening between two clicks — the `DoubleClick` is simply
appended.  The event is always accepted and button flag and step stack are
untouched. -/
theorem dblclick_collapse_iff_two_clicks (st : SessionState) (x y : Int)
    (h : String) (m : Modifiers) :
    Codegen.consume (RawEvent.dblclick x y h m) st =
      (true, { st with events :=
        if (st.events.getLast?).map Entry.type = some "click" ∧
            ((st.events.dropLast).getLast?).map Entry.type = some "click"
        then (st.events.dropLast).dropLast ++ [Entry.dblclick x y h m]
        else st.events ++ [Entry.dblclick x y h m] }) := by
  simp [Codegen.consume, trackButton, trackSteps, mergeEvent]

/-! ### C8 -/

/-- C8: consuming a `StepEnd` raw event with an empty step stack discards
the event as a no-op: `consume` returns `false` and the state (log, step
stack, button flag) is unchanged, so the `exec` listener schedules no
render/flush and the driver is unchanged; with a non-empty stack exactly one
name is popped and a step-end entry is appended. -/
theorem stepend_empty_stack_noop :
    (∀ st : SessionState, st.steps = [] →
        Codegen.consume (RawEvent.step StepWhich.«end» none) st = (false, st)) ∧
    (∀ (st : SessionState) (n : String) (rest : List String), st.steps = n :: rest →
        Codegen.consume (RawEvent.step StepWhich.«end» none) st =
          (true, { st with
                     events := st.events ++ [Entry.step StepWhich.«end» none],
                     steps := rest })) ∧
    (∀ d : Driver, d.st.steps = [] →
        Codegen.exec (RawEvent.step StepWhich.«end» none) d = d) := by
  refine ⟨?_, ?_, ?_⟩
  · intro st hst
    simp [Codegen.consume, trackButton, trackSteps, hst]
  · intro st n rest hst
    simp [Codegen.consume, trackButton, trackSteps, mergeEvent, hst]
  · intro d hd
    simp [Codegen.exec, Codegen.consume, trackButton, trackSteps, hd]

/-- C8 witness: the no-op at a concrete state with a non-empty log, and the
unchanged driver. -/
theorem stepend_empty_stack_noop_witness :
    Codegen.consume (RawEvent.step StepWhich.«end» none) ⟨[Entry.comment "c"], true, []⟩ =
        (false, ⟨[Entry.comment "c"], true, []⟩) ∧
    Codegen.exec (RawEvent.step StepWhich.«end» none) (initDriver true "t") =
        initDriver true "t" :=
  ⟨stepend_empty_stack_noop.1 _ rfl, stepend_empty_stack_noop.2.2 _ rfl⟩

/-! ### Shape of the merge/append chain -/

theorem Entry.isMM_of_type {o : Entry} (h : o.type = "mousemove") : o.isMM = true := by
  cases o <;> simp_all [Entry.type, Entry.isMM]

theorem Entry.not_isMM_of_type_ne {o : Entry} (h : o.type ≠ "mousemove") : o.isMM = false := by
  cases o <;> simp_all [Entry.type, Entry.isMM]

/-- Every branch of `mergeEvent` either appends one new entry, or replaces
the last entry, or replaces the last two entries; the replaced entries are
never step boundaries, a pushed entry has the raw event's kind, and a
`mousemove` entry is appended only when the tail is not a `mousemove` and
merged only into a `mousemove` tail. -/
theorem mergeEvent_shape (ev : RawEvent) (l : List Entry) :
    (∃ e, mergeEvent ev l = l ++ [e] ∧ e.type = ev.type ∧
        (e.isMM = true → ∀ o, l.getLast? = some o → o.isMM = false)) ∨
    (∃ e o, l.getLast? = some o ∧ mergeEvent ev l = l.dropLast ++ [e] ∧
        o.type ≠ "step" ∧ e.type ≠ "step" ∧ (e.isMM = true → o.isMM = true)) ∨
    (∃ e o1 o2, l.getLast? = some o2 ∧ (l.dropLast).getLast? = some o1 ∧
        mergeEvent ev l = (l.dropLast).dropLast ++ [e] ∧
        o1.type ≠ "step" ∧ o2.type ≠ "step" ∧ e.isMM = false ∧ e.type ≠ "step") := by
  cases ev with
  | mousemove x y h m =>
    simp only [mergeEvent]
    split
    · next hc =>
      obtain ⟨o, ho, hot⟩ := Option.map_eq_some'.mp hc
      exact Or.inr (Or.inl ⟨_, o, ho, rfl, by rw [hot]; decide,
        by simp [Entry.type], fun _ => Entry.isMM_of_type hot⟩)
    · next hc =>
      refine Or.inl ⟨_, rfl, rfl, fun _ o ho => Entry.not_isMM_of_type_ne fun hot => ?_⟩
      exact hc (by rw [ho]; simp [hot])
  | mouseup x y h m =>
    simp only [mergeEvent]
    split
    · next hc =>
      obtain ⟨o, ho, hot⟩ := Option.map_eq_some'.mp hc
      exact Or.inr (Or.inl ⟨_, o, ho, rfl, by rw [hot]; decide,
        by simp [Entry.type], fun hmm => by simp [Entry.isMM] at hmm⟩)
    · exact Or.inl ⟨_, rfl, rfl, fun hmm => by simp [Entry.isMM] at hmm⟩
  | keyup k m =>
    simp only [mergeEvent]
    split
    · rename_i k2 m2 heq
      split
      · exact Or.inr (Or.inl ⟨_, _, heq, rfl, by simp [Entry.type],
          by simp [Entry.type], fun hmm => by simp [Entry.isMM] at hmm⟩)
      · exact Or.inl ⟨_, rfl, rfl, fun hmm => by simp [Entry.isMM] at hmm⟩
    · exact Or.inl ⟨_, rfl, rfl, fun hmm => by simp [Entry.isMM] at hmm⟩
  | dblclick x y h m =>
    simp only [mergeEvent]
    split
    · next hc =>
      obtain ⟨o2, ho2, hot2⟩ := Option.map_eq_some'.mp hc.1
      obtain ⟨o1, ho1, hot1⟩ := Option.map_eq_some'.mp hc.2
      exact Or.inr (Or.inr ⟨_, o1, o2, ho2, ho1, rfl, by rw [hot1]; decide,
        by rw [hot2]; decide, by simp [Entry.isMM], by simp [Entry.type]⟩)
    · exact Or.inl ⟨_, rfl, rfl, fun hmm => by simp [Entry.isMM] at hmm⟩
  | wheel x y dX dY h m =>
    simp only [mergeEvent]
    split
    · rename_i lx ly ldX ldY lh lm heq
      split
      · exact Or.inr (Or.inl ⟨_, _, heq, rfl, by simp [Entry.type],
          by simp [Entry.type], fun hmm => by simp [Entry.isMM] at hmm⟩)
      · exact Or.inl ⟨_, rfl, rfl, fun hmm => by simp [Entry.isMM] at hmm⟩
    · exact Or.inl ⟨_, rfl, rfl, fun hmm => by simp [Entry.isMM] at hmm⟩
  | mousedown x y h m =>
    exact Or.inl ⟨_, rfl, rfl, fun hmm => by simp [Entry.isMM] at hmm⟩
  | keydown k m =>
    exact Or.inl ⟨_, rfl, rfl, fun hmm => by simp [Entry.isMM] at hmm⟩
  | screenshot h n b c =>
    exact Or.inl ⟨_, rfl, rfl, fun hmm => by simp [Entry.isMM] at hmm⟩
  | step w n =>
    exact Or.inl ⟨_, rfl, rfl, fun hmm => by simp [Entry.isMM] at hmm⟩
  | comment v =>
    exact Or.inl ⟨_, rfl, rfl, fun hmm => by simp [Entry.isMM] at hmm⟩
  | navigation u =>
    exact Or.inl ⟨_, rfl, rfl, fun hmm => by simp [Entry.isMM] at hmm⟩

theorem depthLog_mergeEvent (ev : RawEvent) (l : List Entry) (h : ev.type ≠ "step") :
    depthLog (mergeEvent ev l) = depthLog l := by
  rcases mergeEvent_shape ev l with ⟨e, he, het, -⟩ | ⟨e, o, ho, he, hot, het, -⟩ |
    ⟨e, o1, o2, ho2, ho1, he, h1, h2, -, het⟩
  · rw [he, depthLog_concat_nonstep _ _ (by rw [het]; exact h)]
  · rw [he, depthLog_concat_nonstep _ _ het, depthLog_dropLast_of_last l o ho hot]
  · rw [he, depthLog_concat_nonstep _ _ het, depthLog_dropLast_of_last _ o1 ho1 h1,
      depthLog_dropLast_of_last l o2 ho2 h2]

/-! ### C4 -/

/-- The step-depth invariant: after any consumed event, the depth of the log
equals the number of still-open steps. -/
theorem depth_consume (ev : RawEvent) (st : SessionState)
    (h : depthLog st.events = some st.steps.length) :
    depthLog ((Codegen.consume ev st).2).events =
      some ((Codegen.consume ev st).2).steps.length := by
  cases ev with
  | step w nm =>
    cases w with
    | start =>
      simp only [Codegen.consume, trackButton, trackSteps, mergeEvent]
      rw [depthLog_concat, h]
      simp [stepDepth]
    | «end» =>
      rcases hst : st.steps with _ | ⟨n, rest⟩
      · simpa [Codegen.consume, trackButton, trackSteps, hst] using h
      · simp only [Codegen.consume, trackButton, trackSteps, mergeEvent, hst]
        rw [depthLog_concat, h, hst]
        simp [stepDepth]
  | mousemove x y hh m =>
    by_cases hd : st.down
    · simp only [Codegen.consume, trackButton, trackSteps, hd, if_pos]
      rw [depthLog_mergeEvent _ _ (by simp [RawEvent.type])]
      exact h
    · simpa [Codegen.consume, trackButton, trackSteps, hd] using h
  | mousedown x y hh m =>
    simp only [Codegen.consume, trackButton, trackSteps]
    rw [depthLog_mergeEvent _ _ (by simp [RawEvent.type])]
    exact h
  | mouseup x y hh m =>
    simp only [Codegen.consume, trackButton, trackSteps]
    rw [depthLog_mergeEvent _ _ (by simp [RawEvent.type])]
    exact h
  | dblclick x y hh m =>
    simp only [Codegen.consume, trackButton, trackSteps]
    rw [depthLog_mergeEvent _ _ (by simp [RawEvent.type])]
    exact h
  | wheel x y dX dY hh m =>
    simp only [Codegen.consume, trackButton, trackSteps]
    rw [depthLog_mergeEvent _ _ (by simp [RawEvent.type])]
    exact h
  | keydown k m =>
    simp only [Codegen.consume, trackButton, trackSteps]
    rw [depthLog_mergeEvent _ _ (by simp [RawEvent.type])]
    exact h
  | keyup k m =>
    simp only [Codegen.consume, trackButton, trackSteps]
    rw [depthLog_mergeEvent _ _ (by simp [RawEvent.type])]
    exact h
  | screenshot hh n b c =>
    simp only [Codegen.consume, trackButton, trackSteps]
    rw [depthLog_mergeEvent _ _ (by simp [RawEvent.type])]
    exact h
  | comment v =>
    simp only [Codegen.consume, trackButton, trackSteps]
    rw [depthLog_mergeEvent _ _ (by simp [RawEvent.type])]
    exact h
  | navigation u =>
    simp only [Codegen.consume, trackButton, trackSteps]
    rw [depthLog_mergeEvent _ _ (by simp [RawEvent.type])]
    exact h

theorem depth_consumeAll (evs : List RawEvent) (st : SessionState)
    (h : depthLog st.events = some st.steps.length) :
    depthLog ((consumeAll evs st).events) = some ((consumeAll evs st).steps.length) := by
  induction evs generalizing st with
  | nil => exact h
  | cons e rest ih =>
    simp only [consumeAll, List.foldl_cons]
    exact ih _ (depth_consume e st h)

theorem depthLog_append_replicate (n : Nat) (l : List Entry)
    (h : depthLog l = some n) :
    depthLog (l ++ List.replicate n (Entry.step StepWhich.«end» none)) = some 0 := by
  induction n generalizing l with
  | zero => simpa using h
  | succ k ih =>
    rw [List.replicate_succ, List.append_cons]
    exact ih _ (by rw [depthLog_concat, h]; rfl)

/-- C4: for every reachable session state (any raw-event trace from the
initial state), the `data` array rendered by `parse` is the log plus exactly
one synthetic step-end entry per still-open step, and its step boundaries
are matched and properly nested (the running nesting depth never goes
negative and ends at zero), the still-open steps being closed by the
appended ends innermost-first. -/
theorem parse_step_balance (evs : List RawEvent) :
    parseData (runTrace evs) =
      (runTrace evs).events ++
        List.replicate (runTrace evs).steps.length (Entry.step StepWhich.«end» none) ∧
    depthLog (parseData (runTrace evs)) = some 0 := by
  refine ⟨rfl, ?_⟩
  exact depthLog_append_replicate _ _ (depth_consumeAll evs initState rfl)

/-! ### C5 -/

theorem consumeAll_cons (e : RawEvent) (l : List RawEvent) (st : SessionState) :
    consumeAll (e :: l) st = consumeAll l (Codegen.consume e st).2 := by
  simp [consumeAll]

theorem noConsecMM_concat (l : List Entry) (e : Entry) (h : noConsecMM l)
    (he : e.isMM = true → ∀ o, l.getLast? = some o → o.isMM = false) :
    noConsecMM (l ++ [e]) := by
  rw [noConsecMM, List.chain'_append]
  refine ⟨h, List.chain'_singleton e, fun x hx y hy => ?_⟩
  rintro ⟨hxm, hym⟩
  have hy' : y = e := by have := hy; simpa using this.symm
  have hx' : l.getLast? = some x := Option.mem_def.mp hx
  have := he (hy' ▸ hym) x hx'
  rw [this] at hxm
  exact Bool.false_ne_true hxm

theorem noConsecMM_dropLast (l : List Entry) (h : noConsecMM l) :
    noConsecMM l.dropLast := by
  rcases hl : l.getLast? with _ | o
  · have hnil : l = [] := by simpa using hl
    subst hnil
    exact h
  · have hdec := eq_dropLast_concat hl
    have h2 : noConsecMM (l.dropLast ++ [o]) := by rw [← hdec]; exact h
    exact (List.chain'_append.mp h2).1

theorem noConsecMM_before_mm (l : List Entry) (o : Entry) (h : noConsecMM l)
    (hl : l.getLast? = some o) (hmm : o.isMM = true) :
    ∀ p, (l.dropLast).getLast? = some p → p.isMM = false := by
  intro p hp
  have hdec := eq_dropLast_concat hl
  have h2 : noConsecMM (l.dropLast ++ [o]) := by rw [← hdec]; exact h
  have hr := (List.chain'_append.mp h2).2.2 p (Option.mem_def.mpr hp) o (by simp)
  cases hpm : p.isMM
  · rfl
  · exact absurd ⟨hpm, hmm⟩ hr

theorem noConsecMM_mergeEvent (ev : RawEvent) (l : List Entry) (h : noConsecMM l) :
    noConsecMM (mergeEvent ev l) := by
  rcases mergeEvent_shape ev l with ⟨e, he, -, hmm⟩ | ⟨e, o, ho, he, -, -, hmm⟩ |
    ⟨e, o1, o2, ho2, ho1, he, -, -, hemm, -⟩
  · rw [he]
    exact noConsecMM_concat l e h hmm
  · rw [he]
    refine noConsecMM_concat _ e (noConsecMM_dropLast l h) fun hemm p hp => ?_
    exact noConsecMM_before_mm l o h ho (hmm hemm) p hp
  · rw [he]
    refine noConsecMM_concat _ e
      (noConsecMM_dropLast _ (noConsecMM_dropLast l h)) fun hemm' p hp => ?_
    rw [hemm] at hemm'
    exact absurd hemm' (by decide)

/-- The first mousemove of a fresh run (tail of the log not a mousemove,
button down) is pushed as a new entry with no `steps` field. -/
theorem consume_move_fresh (p : MovePt) (st : SessionState) (hdown : st.down = true)
    (hcond : ¬((st.events.getLast?).map Entry.type = some "mousemove")) :
    Codegen.consume (MovePt.toRaw p) st =
      (true, { events := st.events ++ [Entry.mousemove p.x p.y p.handle p.mods none],
               down := true, steps := st.steps }) := by
  simp [Codegen.consume, trackButton, trackSteps, mergeEvent, MovePt.toRaw, hdown, hcond]

/-- Consuming a run of mousemoves whose state tail is already a mousemove
entry keeps merging into that tail, accumulating the step count. -/
theorem consumeAll_moves (ps : List MovePt) (q : MovePt) (st : SessionState)
    (init : List Entry) (x y : Int) (hh : String) (m : Modifiers) (s : Option Nat)
    (hq : ps.getLast? = some q)
    (hev : st.events = init ++ [Entry.mousemove x y hh m s]) (hdown : st.down = true) :
    consumeAll (ps.map MovePt.toRaw) st =
      { events := init ++ [Entry.mousemove q.x q.y q.handle q.mods
          (some (s.getD 0 + ps.length))],
        down := true, steps := st.steps } := by
  induction ps generalizing q st init x y hh m s with
  | nil => cases hq
  | cons p rest ih =>
    have hstep : Codegen.consume (MovePt.toRaw p) st =
        (true, { events := init ++ [Entry.mousemove p.x p.y p.handle p.mods
            (some (s.getD 0 + 1))], down := true, steps := st.steps }) := by
      simp [Codegen.consume, trackButton, trackSteps, mergeEvent, MovePt.toRaw, hdown, hev,
        List.getLast?_concat, List.dropLast_concat, Entry.type, Entry.stepsField]
    have hstep2 := congrArg Prod.snd hstep
    rcases rest with _ | ⟨r2, rest'⟩
    · have hqp : p = q := by simpa using hq
      subst hqp
      rw [List.map_cons, List.map_nil, consumeAll_cons, hstep2]
      rfl
    · have hq' : (r2 :: rest').getLast? = some q := by
        rwa [List.getLast?_cons_cons] at hq
      rw [List.map_cons, consumeAll_cons, hstep2,
        ih q _ init p.x p.y p.handle p.mods (some (s.getD 0 + 1)) hq' rfl rfl]
      simp [SessionState.mk.injEq]
      omega

/-- C5: consuming a complete run of N ≥ 1 consecutive `MouseMove` raw events
while `buttonDown` is true (the log tail not already being a mousemove run,
i.e. the run is not the continuation of an earlier one) appends exactly one
`mousemove` entry carrying the last event's coordinates with
`steps` defaulting to `N - 1`; and consuming any raw event preserves the
invariant that the log never contains two consecutive `mousemove` entries. -/
theorem mousemove_run_coalesces :
    (∀ (st : SessionState) (ps : List MovePt) (q : MovePt),
        ps.getLast? = some q → st.down = true →
        (st.events.getLast?).all (fun o => !o.isMM) = true →
        ∃ s : Option Nat,
          (consumeAll (ps.map MovePt.toRaw) st).events =
            st.events ++ [Entry.mousemove q.x q.y q.handle q.mods s] ∧
          s.getD 0 = ps.length - 1) ∧
    (∀ (ev : RawEvent) (st : SessionState), noConsecMM st.events →
        noConsecMM ((Codegen.consume ev st).2).events) := by
  constructor
  · intro st ps q hq hdown htail
    have hcond : ¬((st.events.getLast?).map Entry.type = some "mousemove") := by
      rcases hl : st.events.getLast? with _ | o
      · simp
      · rw [hl] at htail
        simp [Option.all] at htail
        simp only [Option.map_eq_some', Option.some.injEq]
        rintro ⟨o', ho', hot⟩
        subst ho'
        exact absurd (Entry.isMM_of_type hot) (by simp [htail])
    rcases ps with _ | ⟨p, rest⟩
    · cases hq
    · have hstep2 := congrArg Prod.snd (consume_move_fresh p st hdown hcond)
      rcases rest with _ | ⟨r2, rest'⟩
      · have hqp : p = q := by simpa using hq
        subst hqp
        refine ⟨none, ?_, rfl⟩
        rw [List.map_cons, List.map_nil, consumeAll_cons, hstep2]
        rfl
      · have hq' : (r2 :: rest').getLast? = some q := by
          rwa [List.getLast?_cons_cons] at hq
        have hrun := consumeAll_moves (r2 :: rest') q
          { events := st.events ++ [Entry.mousemove p.x p.y p.handle p.mods none],
            down := true, steps := st.steps }
          st.events p.x p.y p.handle p.mods none hq' rfl rfl
        refine ⟨some (Option.getD none 0 + (r2 :: rest').length), ?_, by simp⟩
        rw [List.map_cons, consumeAll_cons, hstep2, hrun]
  · intro ev st h
    rcases htb : trackButton ev st.down with _ | d
    · simp only [Codegen.consume, htb]
      exact h
    · rcases hts : trackSteps ev st.steps with _ | s
      · simp only [Codegen.consume, htb, hts]
        exact h
      · simp only [Codegen.consume, htb, hts]
        exact noConsecMM_mergeEvent ev st.events h

/-- C5 witness: two fresh in-drag moves after a mousedown coalesce into one
entry with `steps = 1`, and the no-consecutive-mousemove invariant is
preserved at a concrete state. -/
theorem mousemove_run_coalesces_witness :
    (∃ s : Option Nat,
        (consumeAll ([⟨1, 1, "selector", noMods⟩, ⟨2, 2, "selector", noMods⟩].map
            MovePt.toRaw)
            ⟨[Entry.mousedown 0 0 "selector" noMods], true, []⟩).events =
          [Entry.mousedown 0 0 "selector" noMods] ++
            [Entry.mousemove 2 2 "selector" noMods s] ∧
        s.getD 0 = 1) ∧
    noConsecMM ((Codegen.consume (RawEvent.comment "c") ⟨[], false, []⟩).2).events :=
  ⟨mousemove_run_coalesces.1 ⟨[Entry.mousedown 0 0 "selector" noMods], true, []⟩
      [⟨1, 1, "selector", noMods⟩, ⟨2, 2, "selector", noMods⟩]
      ⟨2, 2, "selector", noMods⟩ rfl rfl (by decide),
   mousemove_run_coalesces.2 (RawEvent.comment "c") ⟨[], false, []⟩ (by decide)⟩

/-! ### C2 -/

/-- C2 counterexample: a navigation raw event arriving while `recording` is
false is not discarded — the `framenavigated` handler emits it without
checking the gate, so the log (part of the session state) changes. -/
theorem navigation_bypasses_recording_gate :
    (Codegen.onFrameNavigated "https://example.com" (initDriver false "t")).st.events
        = [Entry.navigation "https://example.com"] ∧
    Codegen.onFrameNavigated "https://example.com" (initDriver false "t") ≠
        initDriver false "t" := by
  decide

/-- C2 (amended): raw events delivered through `emitCodegenEvent` (mouse and
keyboard events) arriving while `recording` is false are discarded with the
driver — log, step stack, button flag, pending write, file — completely
unchanged; navigation raw events are not gated: `onFrameNavigated` consumes
them and appends a navigation entry to the log regardless of the flag. -/
theorem recording_gate_discards_events (e : RawEvent) (url : String) (d : Driver)
    (h : d.recording = false) :
    Codegen.emitCodegenEvent e d = d ∧
    (Codegen.onFrameNavigated url d).st.events = d.st.events ++ [Entry.navigation url] := by
  constructor
  · simp [Codegen.emitCodegenEvent, h]
  · simp [Codegen.onFrameNavigated, Codegen.exec, Codegen.consume, trackButton,
      trackSteps, mergeEvent]

/-- C2 witness: the amended theorem at a concrete non-recording driver. -/
theorem recording_gate_discards_events_witness :
    Codegen.emitCodegenEvent (RawEvent.mousedown 1 2 "selector" noMods)
        (initDriver false "t") = initDriver false "t" ∧
    (Codegen.onFrameNavigated "https://example.com" (initDriver false "t")).st.events =
      (initDriver false "t").st.events ++ [Entry.navigation "https://example.com"] :=
  recording_gate_discards_events (RawEvent.mousedown 1 2 "selector" noMods)
    "https://example.com" (initDriver false "t") rfl

/-! ### C3 -/

/-- C3 counterexample: after one accepted event, `stopRecording` performs no
write at all — the debounced write is still pending and no file content was
ever written, so the script file does not reflect the accepted event at
stop. -/
theorem stop_performs_no_write :
    (Codegen.stopRecording
        (Codegen.exec (RawEvent.mousedown 1 2 "selector" noMods)
          (initDriver true "t"))).file = none ∧
    (Codegen.stopRecording
        (Codegen.exec (RawEvent.mousedown 1 2 "selector" noMods)
          (initDriver true "t"))).pending = true ∧
    (Codegen.stopRecording
        (Codegen.exec (RawEvent.mousedown 1 2 "selector" noMods)
          (initDriver true "t"))).st.events ≠ [] := by
  decide

/-- C3 (amended): stopping a session only clears the recording flag — no
synchronous render/write is forced at stop, and the pending debounced write
is left pending; the flush happens only when the debounce timer fires, at
which point the file receives the render of the whole current log (which by
`parse` closes every still-open step). -/
theorem stop_only_clears_flag :
    (∀ d : Driver, Codegen.stopRecording d = { d with recording := false }) ∧
    (∀ d : Driver, d.pending = true →
        Codegen.timerFire d =
          { d with pending := false, file := some (Codegen.write d.st) }) := by
  constructor
  · intro d
    rfl
  · intro d h
    simp [Codegen.timerFire, h]

/-- C3 witness: the amended theorem at a concrete pending driver. -/
theorem stop_only_clears_flag_witness :
    Codegen.stopRecording (initDriver true "t") =
      { initDriver true "t" with recording := false } ∧
    Codegen.timerFire { initDriver true "t" with pending := true } =
      { { initDriver true "t" with pending := true } with
          pending := false,
          file := some (Codegen.write ({ initDriver true "t" with pending := true }).st) } :=
  ⟨stop_only_clears_flag.1 (initDriver true "t"),
   stop_only_clears_flag.2 { initDriver true "t" with pending := true } rfl⟩

/-! ### C9 -/

/-- C9: each of the API calls `step`, `endStep`, `captureScreenshot` and
`comment` raises a synchronous error exactly when `recording` is false
(first component `true` = raised), and on that error the session state
(log, step stack, button flag), the recording flag, the pending write and
the file are unchanged — the event is not silently dropped into the log.
(`captureScreenshot`'s auto-name counter is evaluated before the assertion
in the source and is the only field a failing call can bump; it is not part
of the session state.) -/
theorem api_calls_raise_iff_not_recording (d : Driver) (name : Option String)
    (v : String) (clip : Option Rect) (bytes : List Nat) :
    ((Codegen.step name d).1 = !d.recording ∧
     (Codegen.endStep d).1 = !d.recording ∧
     (Codegen.comment v d).1 = !d.recording ∧
     (Codegen.captureScreenshot name clip bytes d).1 = !d.recording) ∧
    (d.recording = false →
      (Codegen.step name d).2 = d ∧
      (Codegen.endStep d).2 = d ∧
      (Codegen.comment v d).2 = d ∧
      ((Codegen.captureScreenshot name clip bytes d).2.st = d.st ∧
       (Codegen.captureScreenshot name clip bytes d).2.recording = d.recording ∧
       (Codegen.captureScreenshot name clip bytes d).2.pending = d.pending ∧
       (Codegen.captureScreenshot name clip bytes d).2.file = d.file)) := by
  cases hr : d.recording <;> cases name <;>
    simp [Codegen.step, Codegen.endStep, Codegen.comment, Codegen.captureScreenshot, hr]

/-- C9 witness: a non-recording driver raises on `step` and is unchanged. -/
theorem api_calls_raise_iff_not_recording_witness :
    (Codegen.step none (initDriver false "t")).1 = !(initDriver false "t").recording ∧
    (Codegen.step none (initDriver false "t")).2 = initDriver false "t" :=
  ⟨(api_calls_raise_iff_not_recording (initDriver false "t") none "c" none []).1.1,
   ((api_calls_raise_iff_not_recording (initDriver false "t") none "c" none []).2 rfl).1⟩

/-! ### C10 -/

/-- C10: a `Wheel` raw event is never filtered by the drag gate — whatever
the `buttonDown` flag, it is accepted and either appended as a fresh `Wheel`
entry or merged into a tail `Wheel` entry, and the flag itself is untouched;
moreover for every raw event other than `MouseMove`, acceptance and the
resulting log do not depend on the `buttonDown` flag at all. -/
theorem wheel_not_filtered_by_drag_gate :
    (∀ (st : SessionState) (x y dX dY : Int) (h : String) (m : Modifiers),
        (Codegen.consume (RawEvent.wheel x y dX dY h m) st).1 = true ∧
        (Codegen.consume (RawEvent.wheel x y dX dY h m) st).2.down = st.down ∧
        ((Codegen.consume (RawEvent.wheel x y dX dY h m) st).2.events =
            st.events ++ [Entry.wheel x y dX dY h m] ∨
          ∃ lx ly ldX ldY lh lm,
            st.events.getLast? = some (Entry.wheel lx ly ldX ldY lh lm) ∧
            (Codegen.consume (RawEvent.wheel x y dX dY h m) st).2.events =
              st.events.dropLast ++ [Entry.wheel x y (ldX + dX) (ldY + dY) h m])) ∧
    (∀ (ev : RawEvent) (st : SessionState) (b b' : Bool), ev.type ≠ "mousemove" →
        ((Codegen.consume ev { st with down := b }).1 =
            (Codegen.consume ev { st with down := b' }).1 ∧
         (Codegen.consume ev { st with down := b }).2.events =
            (Codegen.consume ev { st with down := b' }).2.events)) := by
  constructor
  · intro st x y dX dY h m
    refine ⟨rfl, rfl, ?_⟩
    simp only [Codegen.consume, trackButton, trackSteps, mergeEvent]
    split
    · rename_i lx ly ldX ldY lh lm heq
      split
      · right
        exact ⟨lx, ly, ldX, ldY, lh, lm, heq, rfl⟩
      · left
        rfl
    · left
      rfl
  · intro ev st b b' hne
    cases ev with
    | mousemove x y h m => exact absurd rfl hne
    | step w n =>
      rcases hts : trackSteps (RawEvent.step w n) st.steps with _ | s <;>
        simp [Codegen.consume, trackButton, hts]
    | mousedown x y h m => exact ⟨rfl, rfl⟩
    | mouseup x y h m => exact ⟨rfl, rfl⟩
    | dblclick x y h m => exact ⟨rfl, rfl⟩
    | wheel x y dX dY h m => exact ⟨rfl, rfl⟩
    | keydown k m => exact ⟨rfl, rfl⟩
    | keyup k m => exact ⟨rfl, rfl⟩
    | screenshot h n b c => exact ⟨rfl, rfl⟩
    | comment v => exact ⟨rfl, rfl⟩
    | navigation u => exact ⟨rfl, rfl⟩

/-- C10 witness: a wheel arriving with the button up is accepted, and a
comment's acceptance is independent of the flag. -/
theorem wheel_not_filtered_by_drag_gate_witness :
    ((Codegen.consume (RawEvent.wheel 5 6 1 2 "selector" noMods) ⟨[], false, []⟩).1 = true ∧
     (Codegen.consume (RawEvent.wheel 5 6 1 2 "selector" noMods) ⟨[], false, []⟩).2.down =
       (⟨[], false, []⟩ : SessionState).down ∧
     ((Codegen.consume (RawEvent.wheel 5 6 1 2 "selector" noMods) ⟨[], false, []⟩).2.events =
         (⟨[], false, []⟩ : SessionState).events ++ [Entry.wheel 5 6 1 2 "selector" noMods] ∨
       ∃ lx ly ldX ldY lh lm,
         (⟨[], false, []⟩ : SessionState).events.getLast? =
           some (Entry.wheel lx ly ldX ldY lh lm) ∧
         (Codegen.consume (RawEvent.wheel 5 6 1 2 "selector" noMods) ⟨[], false, []⟩).2.events =
           (⟨[], false, []⟩ : SessionState).events.dropLast ++
             [Entry.wheel 5 6 (ldX + 1) (ldY + 2) "selector" noMods])) ∧
    ((Codegen.consume (RawEvent.comment "c")
        { (⟨[], false, []⟩ : SessionState) with down := true }).1 =
      (Codegen.consume (RawEvent.comment "c")
        { (⟨[], false, []⟩ : SessionState) with down := false }).1 ∧
     (Codegen.consume (RawEvent.comment "c")
        { (⟨[], false, []⟩ : SessionState) with down := true }).2.events =
      (Codegen.consume (RawEvent.comment "c")
        { (⟨[], false, []⟩ : SessionState) with down := false }).2.events) :=
  ⟨wheel_not_filtered_by_drag_gate.1 ⟨[], false, []⟩ 5 6 1 2 "selector" noMods,
   wheel_not_filtered_by_drag_gate.2 (RawEvent.comment "c") ⟨[], false, []⟩ true false
     (by decide)⟩
